import Mathlib

/-!
# Verification of the difflocal demo diff engine

Shallow embedding of `src/demo/demoData.ts` (functions `generateDiffLines`,
`calculateDiffStats`, `generateDemoResult`) together with the data model of
`types/diff.ts`, and proofs of the specification's claims about them.

Strings are modelled by Lean `String`; JavaScript `String.prototype.split('\n')`
is modelled by `splitLines` below, which keeps empty segments (including a
trailing empty segment produced by a final newline), exactly as JS `split` does.
-/

namespace DiffLocal

/-- The `LineType` union from `types/diff.ts`: `'add' | 'remove' | 'unchanged'`. -/
inductive LineType where
  | add
  | remove
  | unchanged
deriving DecidableEq, Repr

/-- The `lineNumbers` field of `DiffLine`: `{ left?: number; right?: number }`. -/
structure LineNumbers where
  left : Option Nat
  right : Option Nat
deriving DecidableEq, Repr

/-- `CharChange` from `types/diff.ts`: `{ type: 'add'|'remove'|'unchanged', value: string }`. -/
structure CharChange where
  type : LineType
  value : String
deriving DecidableEq, Repr

/-- `DiffLine` from `types/diff.ts`: type, content, line numbers and the optional
`changes` field used for inline highlighting. -/
structure DiffLine where
  type : LineType
  content : String
  lineNumbers : LineNumbers
  changes : Option (List CharChange)
deriving DecidableEq, Repr

/-- `DiffStats` from `types/diff.ts`. -/
structure DiffStats where
  added : Nat
  removed : Nat
  unchanged : Nat
  totalLeft : Nat
  totalRight : Nat
deriving DecidableEq, Repr

/-- `DiffResult` from `types/diff.ts`. -/
structure DiffResult where
  lines : List DiffLine
  stats : DiffStats
deriving DecidableEq, Repr

/-- JavaScript `Array.prototype.indexOf` on a list of strings: the index of the
first occurrence of `a`, or `-1` when `a` does not occur. -/
def jsIndexOf (a : String) : List String → Int
  | [] => -1
  | b :: bs =>
    if b = a then 0
    else
      let r := jsIndexOf a bs
      if r = -1 then -1 else r + 1

/-- JavaScript `s.split('\n')` on the character list of `s`: split at every
newline, keeping empty segments; the empty string yields one empty segment. -/
def splitLinesAux : List Char → List (List Char)
  | [] => [[]]
  | c :: cs =>
    if c = '\n' then [] :: splitLinesAux cs
    else
      match splitLinesAux cs with
      | [] => [[c]]
      | l :: ls => (c :: l) :: ls

/-- `original.split('\n')` from `generateDiffLines` (demoData.ts line 220). -/
def splitLines (s : String) : List String :=
  (splitLinesAux s.data).map fun l => ⟨l⟩

/-- The main `while` loop of `generateDiffLines` (demoData.ts lines 230-296),
with the remaining suffixes of `originalLines`/`modifiedLines` and the
`leftLine`/`rightLine` counters as state. `slice(i)`/`slice(j)` of the source
correspond to the two list arguments. -/
def generateDiffLinesAux : List String → List String → Nat → Nat → List DiffLine
  | [], [], _, _ => []
  | [], modLine :: ms, leftLine, rightLine =>
    -- only modified lines left
    ⟨.add, modLine, ⟨none, some rightLine⟩, none⟩ ::
      generateDiffLinesAux [] ms leftLine (rightLine + 1)
  | origLine :: os, [], leftLine, rightLine =>
    -- only original lines left
    ⟨.remove, origLine, ⟨some leftLine, none⟩, none⟩ ::
      generateDiffLinesAux os [] (leftLine + 1) rightLine
  | origLine :: os, modLine :: ms, leftLine, rightLine =>
    if origLine = modLine then
      -- lines match
      ⟨.unchanged, origLine, ⟨some leftLine, some rightLine⟩, none⟩ ::
        generateDiffLinesAux os ms (leftLine + 1) (rightLine + 1)
    else
      let origInMod := jsIndexOf origLine (modLine :: ms)
      let modInOrig := jsIndexOf modLine (origLine :: os)
      if origInMod = -1 ∧ modInOrig = -1 then
        -- both lines are unique - treat as modification
        ⟨.remove, origLine, ⟨some leftLine, none⟩, none⟩ ::
          ⟨.add, modLine, ⟨none, some rightLine⟩, none⟩ ::
            generateDiffLinesAux os ms (leftLine + 1) (rightLine + 1)
      else if origInMod ≠ -1 ∧ (modInOrig = -1 ∨ origInMod ≤ modInOrig) then
        -- original line appears later in modified - add new lines
        ⟨.add, modLine, ⟨none, some rightLine⟩, none⟩ ::
          generateDiffLinesAux (origLine :: os) ms leftLine (rightLine + 1)
      else
        -- modified line appears later in original - remove original
        ⟨.remove, origLine, ⟨some leftLine, none⟩, none⟩ ::
          generateDiffLinesAux os (modLine :: ms) (leftLine + 1) rightLine
termination_by o m _ _ => o.length + m.length
decreasing_by all_goals (simp only [List.length_cons, List.length_nil]; omega)

/-- `generateDiffLines` from demoData.ts (lines 219-299). -/
def generateDiffLines (original modified : String) : List DiffLine :=
  generateDiffLinesAux (splitLines original) (splitLines modified) 1 1

/-- The accumulator of the `reduce` in `calculateDiffStats`. -/
structure DiffCounts where
  added : Nat
  removed : Nat
  unchanged : Nat
deriving DecidableEq, Repr

/-- `calculateDiffStats` from demoData.ts (lines 304-324): a single `reduce`
counting lines by type, then the externally supplied counts are copied into
`totalLeft`/`totalRight`. -/
def calculateDiffStats (lines : List DiffLine) (originalLineCount modifiedLineCount : Nat) :
    DiffStats :=
  let stats := lines.foldl
    (fun (acc : DiffCounts) line =>
      match line.type with
      | .add => { acc with added := acc.added + 1 }
      | .remove => { acc with removed := acc.removed + 1 }
      | .unchanged => { acc with unchanged := acc.unchanged + 1 })
    ⟨0, 0, 0⟩
  ⟨stats.added, stats.removed, stats.unchanged, originalLineCount, modifiedLineCount⟩

/-- `generateDemoResult` from demoData.ts (lines 329-341). -/
def generateDemoResult (original modified : String) : DiffResult :=
  let lines := generateDiffLines original modified
  let stats := calculateDiffStats lines
    (splitLines original).length (splitLines modified).length
  ⟨lines, stats⟩

/-! ## Derived observation functions used to state the claims -/

/-- Contents of the left-consuming lines (`remove` and `unchanged`), in order. -/
def leftContents (lines : List DiffLine) : List String :=
  (lines.filter fun l => decide (l.type = .remove ∨ l.type = .unchanged)).map DiffLine.content

/-- Contents of the right-consuming lines (`add` and `unchanged`), in order. -/
def rightContents (lines : List DiffLine) : List String :=
  (lines.filter fun l => decide (l.type = .add ∨ l.type = .unchanged)).map DiffLine.content

/-- Contents of the `unchanged` lines, in order. -/
def unchangedContents (lines : List DiffLine) : List String :=
  (lines.filter fun l => decide (l.type = .unchanged)).map DiffLine.content

/-- Number of lines of a given type. -/
def countType (t : LineType) (lines : List DiffLine) : Nat :=
  lines.countP fun l => decide (l.type = t)

/-- Reference longest-common-subsequence length over token sequences, following
the spec's words (the classical recurrence); used to compare the engine's edit
count against the minimal `leftLength + rightLength - 2 * LCSLength` bound. -/
def lcsLen : List String → List String → Nat
  | [], _ => 0
  | _ :: _, [] => 0
  | a :: as, b :: bs =>
    if a = b then lcsLen as bs + 1
    else max (lcsLen as (b :: bs)) (lcsLen (a :: as) bs)

/-- The spec's `lineCount`: the number of line tokens of a string, as the code
computes it (`s.split('\n').length`). -/
def lineCount (s : String) : Nat := (splitLines s).length

/-! ## Structural lemmas about the engine loop -/

/-- Round trip, left side: the `remove`/`unchanged` contents of the loop output
are exactly the remaining original lines. -/
theorem leftContents_generateDiffLinesAux (o m : List String) (a b : Nat) :
    leftContents (generateDiffLinesAux o m a b) = o := by
  induction o, m, a, b using generateDiffLinesAux.induct with
  | case1 a b => simp [generateDiffLinesAux, leftContents]
  | case2 modLine ms a b ih =>
    rw [generateDiffLinesAux]
    simpa [leftContents] using ih
  | case3 origLine os a b ih =>
    rw [generateDiffLinesAux]
    simpa [leftContents] using ih
  | case4 os modLine ms a b ih =>
    rw [generateDiffLinesAux]
    simpa [leftContents] using ih
  | case5 origLine os modLine ms a b hne oim mio h ih =>
    rw [generateDiffLinesAux]
    simp only [oim, mio] at h
    simp only [if_neg hne, if_pos h]
    simpa [leftContents] using ih
  | case6 origLine os modLine ms a b hne oim mio h1 h2 ih =>
    rw [generateDiffLinesAux]
    simp only [oim, mio] at h1 h2
    simp only [if_neg hne, if_neg h1, if_pos h2]
    simpa [leftContents] using ih
  | case7 origLine os modLine ms a b hne oim mio h1 h2 ih =>
    rw [generateDiffLinesAux]
    simp only [oim, mio] at h1 h2
    simp only [if_neg hne, if_neg h1, if_neg h2]
    simpa [leftContents] using ih

/-- Round trip, right side: the `add`/`unchanged` contents of the loop output
are exactly the remaining modified lines. -/
theorem rightContents_generateDiffLinesAux (o m : List String) (a b : Nat) :
    rightContents (generateDiffLinesAux o m a b) = m := by
  induction o, m, a, b using generateDiffLinesAux.induct with
  | case1 a b => simp [generateDiffLinesAux, rightContents]
  | case2 modLine ms a b ih =>
    rw [generateDiffLinesAux]
    simpa [rightContents] using ih
  | case3 origLine os a b ih =>
    rw [generateDiffLinesAux]
    simpa [rightContents] using ih
  | case4 os modLine ms a b ih =>
    rw [generateDiffLinesAux]
    simpa [rightContents] using ih
  | case5 origLine os modLine ms a b hne oim mio h ih =>
    rw [generateDiffLinesAux]
    simp only [oim, mio] at h
    simp only [if_neg hne, if_pos h]
    simpa [rightContents] using ih
  | case6 origLine os modLine ms a b hne oim mio h1 h2 ih =>
    rw [generateDiffLinesAux]
    simp only [oim, mio] at h1 h2
    simp only [if_neg hne, if_neg h1, if_pos h2]
    simpa [rightContents] using ih
  | case7 origLine os modLine ms a b hne oim mio h1 h2 ih =>
    rw [generateDiffLinesAux]
    simp only [oim, mio] at h1 h2
    simp only [if_neg hne, if_neg h1, if_neg h2]
    simpa [rightContents] using ih

/-- The `reduce` accumulator of `calculateDiffStats` after processing `lines`
starting from `acc`: each component grows by the respective per-type count. -/
theorem calculateDiffStats_foldl (lines : List DiffLine) (acc : DiffCounts) :
    lines.foldl
      (fun (acc : DiffCounts) line =>
        match line.type with
        | .add => { acc with added := acc.added + 1 }
        | .remove => { acc with removed := acc.removed + 1 }
        | .unchanged => { acc with unchanged := acc.unchanged + 1 })
      acc =
    ⟨acc.added + countType .add lines, acc.removed + countType .remove lines,
      acc.unchanged + countType .unchanged lines⟩ := by
  induction lines generalizing acc with
  | nil => simp [countType]
  | cons line ls ih =>
    cases h : line.type <;>
      simp [h, ih, countType, List.countP_cons, DiffCounts.mk.injEq] <;> omega

/-- `calculateDiffStats` counts lines by type and copies the two supplied
counts into `totalLeft` and `totalRight` unchanged. -/
theorem calculateDiffStats_eq (lines : List DiffLine) (a b : Nat) :
    calculateDiffStats lines a b =
      ⟨countType .add lines, countType .remove lines, countType .unchanged lines, a, b⟩ := by
  simp [calculateDiffStats, calculateDiffStats_foldl]

theorem length_leftContents (lines : List DiffLine) :
    (leftContents lines).length = countType .remove lines + countType .unchanged lines := by
  induction lines with
  | nil => simp [leftContents, countType]
  | cons line ls ih =>
    cases h : line.type <;>
      simp [leftContents, countType, List.filter_cons, List.countP_cons, h] at ih ⊢ <;> omega

theorem length_rightContents (lines : List DiffLine) :
    (rightContents lines).length = countType .add lines + countType .unchanged lines := by
  induction lines with
  | nil => simp [rightContents, countType]
  | cons line ls ih =>
    cases h : line.type <;>
      simp [rightContents, countType, List.filter_cons, List.countP_cons, h] at ih ⊢ <;> omega

theorem length_unchangedContents (lines : List DiffLine) :
    (unchangedContents lines).length = countType .unchanged lines := by
  induction lines with
  | nil => simp [unchangedContents, countType]
  | cons line ls ih =>
    cases h : line.type <;>
      simp [unchangedContents, countType, List.filter_cons, List.countP_cons, h] at ih ⊢ <;>
        omega

/-- The loop emits no line only when both inputs are exhausted. -/
theorem generateDiffLinesAux_eq_nil_iff (o m : List String) (a b : Nat) :
    generateDiffLinesAux o m a b = [] ↔ o = [] ∧ m = [] := by
  cases o with
  | nil =>
    cases m with
    | nil => simp [generateDiffLinesAux]
    | cons y ys => simp [generateDiffLinesAux]
  | cons x xs =>
    cases m with
    | nil => simp [generateDiffLinesAux]
    | cons y ys =>
      rw [generateDiffLinesAux]
      split
      · simp
      · dsimp only
        split
        · simp
        · split <;> simp

/-- JS `split` never returns an empty array. -/
theorem splitLinesAux_ne_nil (cs : List Char) : splitLinesAux cs ≠ [] := by
  induction cs with
  | nil => simp [splitLinesAux]
  | cons c cs ih =>
    rw [splitLinesAux]
    split
    · simp
    · split <;> simp

theorem splitLines_ne_nil (s : String) : splitLines s ≠ [] := by
  simpa [splitLines] using splitLinesAux_ne_nil s.data

/-- The contents of the `unchanged` lines form a subsequence of the remaining
original lines. -/
theorem unchangedContents_sublist_left (o m : List String) (a b : Nat) :
    List.Sublist (unchangedContents (generateDiffLinesAux o m a b)) o := by
  induction o, m, a, b using generateDiffLinesAux.induct with
  | case1 a b => simp [generateDiffLinesAux, unchangedContents]
  | case2 modLine ms a b ih =>
    rw [generateDiffLinesAux]
    simpa [unchangedContents] using ih
  | case3 origLine os a b ih =>
    rw [generateDiffLinesAux]
    simpa [unchangedContents] using ih.cons origLine
  | case4 os modLine ms a b ih =>
    rw [generateDiffLinesAux]
    simpa [unchangedContents] using ih.cons₂ modLine
  | case5 origLine os modLine ms a b hne oim mio h ih =>
    rw [generateDiffLinesAux]
    simp only [oim, mio] at h
    simp only [if_neg hne, if_pos h]
    simpa [unchangedContents] using ih.cons origLine
  | case6 origLine os modLine ms a b hne oim mio h1 h2 ih =>
    rw [generateDiffLinesAux]
    simp only [oim, mio] at h1 h2
    simp only [if_neg hne, if_neg h1, if_pos h2]
    simpa [unchangedContents] using ih
  | case7 origLine os modLine ms a b hne oim mio h1 h2 ih =>
    rw [generateDiffLinesAux]
    simp only [oim, mio] at h1 h2
    simp only [if_neg hne, if_neg h1, if_neg h2]
    simpa [unchangedContents] using ih.cons origLine

/-- The contents of the `unchanged` lines form a subsequence of the remaining
modified lines. -/
theorem unchangedContents_sublist_right (o m : List String) (a b : Nat) :
    List.Sublist (unchangedContents (generateDiffLinesAux o m a b)) m := by
  induction o, m, a, b using generateDiffLinesAux.induct with
  | case1 a b => simp [generateDiffLinesAux, unchangedContents]
  | case2 modLine ms a b ih =>
    rw [generateDiffLinesAux]
    simpa [unchangedContents] using ih.cons modLine
  | case3 origLine os a b ih =>
    rw [generateDiffLinesAux]
    simpa [unchangedContents] using ih
  | case4 os modLine ms a b ih =>
    rw [generateDiffLinesAux]
    simpa [unchangedContents] using ih.cons₂ modLine
  | case5 origLine os modLine ms a b hne oim mio h ih =>
    rw [generateDiffLinesAux]
    simp only [oim, mio] at h
    simp only [if_neg hne, if_pos h]
    simpa [unchangedContents] using ih.cons modLine
  | case6 origLine os modLine ms a b hne oim mio h1 h2 ih =>
    rw [generateDiffLinesAux]
    simp only [oim, mio] at h1 h2
    simp only [if_neg hne, if_neg h1, if_pos h2]
    simpa [unchangedContents] using ih.cons modLine
  | case7 origLine os modLine ms a b hne oim mio h1 h2 ih =>
    rw [generateDiffLinesAux]
    simp only [oim, mio] at h1 h2
    simp only [if_neg hne, if_neg h1, if_neg h2]
    simpa [unchangedContents] using ih

/-- Any common subsequence of two token sequences is no longer than their
longest-common-subsequence length. -/
theorem length_le_lcsLen (l : List String) :
    ∀ r u : List String, List.Sublist u l → List.Sublist u r → u.length ≤ lcsLen l r := by
  induction l with
  | nil =>
    intro r u hl _
    rw [List.sublist_nil] at hl
    subst hl
    simp
  | cons a as ihl =>
    intro r
    induction r with
    | nil =>
      intro u _ hr
      rw [List.sublist_nil] at hr
      subst hr
      simp
    | cons b bs ihr =>
      intro u hl hr
      by_cases hab : a = b
      · subst hab
        rw [lcsLen, if_pos rfl]
        cases u with
        | nil => simp
        | cons x xs =>
          have hxs_as : List.Sublist xs as := by
            cases hl with
            | cons _ h => exact (List.sublist_cons_self x xs).trans h
            | cons₂ _ h => exact h
          have hxs_bs : List.Sublist xs bs := by
            cases hr with
            | cons _ h => exact (List.sublist_cons_self x xs).trans h
            | cons₂ _ h => exact h
          simpa using Nat.succ_le_succ (ihl bs xs hxs_as hxs_bs)
      · rw [lcsLen, if_neg hab]
        cases u with
        | nil => simp
        | cons x xs =>
          cases hl with
          | cons _ h =>
            exact le_max_iff.mpr (Or.inl (ihl (b :: bs) (x :: xs) h hr))
          | cons₂ _ h =>
            cases hr with
            | cons _ h2 =>
              exact le_max_iff.mpr (Or.inr (ihr (a :: xs) (h.cons₂ a) h2))
            | cons₂ _ h2 => exact absurd rfl hab

/-- Diffing a token sequence against itself yields no `add`/`remove` lines and
one `unchanged` line per token. -/
theorem generateDiffLinesAux_self (l : List String) (a b : Nat) :
    countType .add (generateDiffLinesAux l l a b) = 0 ∧
    countType .remove (generateDiffLinesAux l l a b) = 0 ∧
    countType .unchanged (generateDiffLinesAux l l a b) = l.length := by
  induction l generalizing a b with
  | nil => simp [generateDiffLinesAux, countType]
  | cons x xs ih =>
    rw [generateDiffLinesAux]
    simp only [if_pos rfl]
    obtain ⟨h1, h2, h3⟩ := ih (a + 1) (b + 1)
    simp [countType, List.countP_cons] at h1 h2 h3 ⊢
    exact ⟨h1, h2, h3⟩

/-- The line-number population discipline of the change model: `unchanged`
lines carry both numbers, `add` lines only the right one, `remove` lines only
the left one. -/
def lineNumbersOk (line : DiffLine) : Prop :=
  (line.type = .unchanged →
    line.lineNumbers.left.isSome ∧ line.lineNumbers.right.isSome) ∧
  (line.type = .add →
    line.lineNumbers.left = none ∧ line.lineNumbers.right.isSome) ∧
  (line.type = .remove →
    line.lineNumbers.left.isSome ∧ line.lineNumbers.right = none)

/-- Every line emitted by the loop satisfies the line-number discipline. -/
theorem lineNumbersOk_generateDiffLinesAux (o m : List String) (a b : Nat) :
    ∀ line ∈ generateDiffLinesAux o m a b, lineNumbersOk line := by
  induction o, m, a, b using generateDiffLinesAux.induct with
  | case1 a b => simp [generateDiffLinesAux]
  | case2 modLine ms a b ih =>
    rw [generateDiffLinesAux]
    intro line hline
    cases hline with
    | head => simp [lineNumbersOk]
    | tail _ h => exact ih line h
  | case3 origLine os a b ih =>
    rw [generateDiffLinesAux]
    intro line hline
    cases hline with
    | head => simp [lineNumbersOk]
    | tail _ h => exact ih line h
  | case4 os modLine ms a b ih =>
    rw [generateDiffLinesAux]
    simp only [if_pos rfl]
    intro line hline
    cases hline with
    | head => simp [lineNumbersOk]
    | tail _ h => exact ih line h
  | case5 origLine os modLine ms a b hne oim mio h ih =>
    rw [generateDiffLinesAux]
    simp only [oim, mio] at h
    simp only [if_neg hne, if_pos h]
    intro line hline
    cases hline with
    | head => simp [lineNumbersOk]
    | tail _ h2 =>
      cases h2 with
      | head => simp [lineNumbersOk]
      | tail _ h3 => exact ih line h3
  | case6 origLine os modLine ms a b hne oim mio h1 h2 ih =>
    rw [generateDiffLinesAux]
    simp only [oim, mio] at h1 h2
    simp only [if_neg hne, if_neg h1, if_pos h2]
    intro line hline
    cases hline with
    | head => simp [lineNumbersOk]
    | tail _ h => exact ih line h
  | case7 origLine os modLine ms a b hne oim mio h1 h2 ih =>
    rw [generateDiffLinesAux]
    simp only [oim, mio] at h1 h2
    simp only [if_neg hne, if_neg h1, if_neg h2]
    intro line hline
    cases hline with
    | head => simp [lineNumbersOk]
    | tail _ h => exact ih line h

/-- Appending a final newline appends one empty split segment (JS `split`
keeps it). -/
theorem splitLinesAux_append_newline (cs : List Char) :
    splitLinesAux (cs ++ ['\n']) = splitLinesAux cs ++ [[]] := by
  induction cs with
  | nil => simp [splitLinesAux]
  | cons c cs ih =>
    by_cases hc : c = '\n'
    · subst hc
      simp only [List.cons_append]
      rw [splitLinesAux, if_pos rfl, splitLinesAux, if_pos rfl, ih]
      simp
    · simp only [List.cons_append]
      rw [splitLinesAux, if_neg hc, splitLinesAux, if_neg hc, ih]
      obtain ⟨l, ls, hl⟩ : ∃ l ls, splitLinesAux cs = l :: ls := by
        cases h : splitLinesAux cs with
        | nil => exact absurd h (splitLinesAux_ne_nil cs)
        | cons l ls => exact ⟨l, ls, rfl⟩
      rw [hl]
      simp

/-! ## Claims -/

/-- C1 (counterexample): the edit script of `generateDiffLines` is not minimal.
For left `"c\na\nb"` and right `"a\nb\nc\na\nb"` the engine emits 4
`add`/`remove` lines while the classical bound
`leftLength + rightLength - 2 * LCSLength = 3 + 5 - 6 = 2`. -/
theorem C1_counterexample :
    countType .add (generateDiffLines "c\na\nb" "a\nb\nc\na\nb") +
        countType .remove (generateDiffLines "c\na\nb" "a\nb\nc\na\nb") ≠
      lineCount "c\na\nb" + lineCount "a\nb\nc\na\nb" -
        2 * lcsLen (splitLines "c\na\nb") (splitLines "a\nb\nc\na\nb") := by
  have h : generateDiffLines "c\na\nb" "a\nb\nc\na\nb" =
      [⟨.remove, "c", ⟨some 1, none⟩, none⟩,
       ⟨.unchanged, "a", ⟨some 2, some 1⟩, none⟩,
       ⟨.unchanged, "b", ⟨some 3, some 2⟩, none⟩,
       ⟨.add, "c", ⟨none, some 3⟩, none⟩,
       ⟨.add, "a", ⟨none, some 4⟩, none⟩,
       ⟨.add, "b", ⟨none, some 5⟩, none⟩] := by
    simp [generateDiffLines, generateDiffLinesAux, splitLines, splitLinesAux, jsIndexOf]
  have hs1 : splitLines "c\na\nb" = ["c", "a", "b"] := by decide
  have hs2 : splitLines "a\nb\nc\na\nb" = ["a", "b", "c", "a", "b"] := by decide
  have hlcs : lcsLen ["c", "a", "b"] ["a", "b", "c", "a", "b"] = 3 := by
    simp [lcsLen]
  rw [h]
  simp only [lineCount, hs1, hs2, hlcs]
  decide

/-- C1 (amended): the number of `add` plus `remove` lines produced by
`generateDiffLines` is at least `leftLength + rightLength - 2 * LCSLength`
over the two line-token sequences; the greedy loop does not always attain this
classical minimum. -/
theorem C1_minimality_lower_bound (s t : String) :
    lineCount s + lineCount t ≤
      countType .add (generateDiffLines s t) + countType .remove (generateDiffLines s t) +
        2 * lcsLen (splitLines s) (splitLines t) := by
  have hL := leftContents_generateDiffLinesAux (splitLines s) (splitLines t) 1 1
  have hR := rightContents_generateDiffLinesAux (splitLines s) (splitLines t) 1 1
  have hLlen : countType .remove (generateDiffLines s t) +
      countType .unchanged (generateDiffLines s t) = (splitLines s).length := by
    rw [← length_leftContents]
    unfold generateDiffLines
    rw [hL]
  have hRlen : countType .add (generateDiffLines s t) +
      countType .unchanged (generateDiffLines s t) = (splitLines t).length := by
    rw [← length_rightContents]
    unfold generateDiffLines
    rw [hR]
  have hsub : countType .unchanged (generateDiffLines s t) ≤
      lcsLen (splitLines s) (splitLines t) := by
    rw [← length_unchangedContents]
    exact length_le_lcsLen (splitLines s) (splitLines t)
      (unchangedContents (generateDiffLines s t))
      (unchangedContents_sublist_left (splitLines s) (splitLines t) 1 1)
      (unchangedContents_sublist_right (splitLines s) (splitLines t) 1 1)
  unfold lineCount
  omega

/-- C2: round trip — the contents of the `remove`/`unchanged` lines of
`generateDiffLines`, in output order, are exactly the left input's line tokens,
and the contents of the `add`/`unchanged` lines are exactly the right input's
line tokens. -/
theorem C2_round_trip (s t : String) :
    leftContents (generateDiffLines s t) = splitLines s ∧
    rightContents (generateDiffLines s t) = splitLines t :=
  ⟨leftContents_generateDiffLinesAux (splitLines s) (splitLines t) 1 1,
   rightContents_generateDiffLinesAux (splitLines s) (splitLines t) 1 1⟩

/-- C3: for every pair of input strings, the stats of `generateDemoResult`
satisfy `totalLeft = removed + unchanged` and `totalRight = added + unchanged`. -/
theorem C3_stats_coverage (s t : String) :
    (generateDemoResult s t).stats.totalLeft =
        (generateDemoResult s t).stats.removed + (generateDemoResult s t).stats.unchanged ∧
    (generateDemoResult s t).stats.totalRight =
        (generateDemoResult s t).stats.added + (generateDemoResult s t).stats.unchanged := by
  have hL := leftContents_generateDiffLinesAux (splitLines s) (splitLines t) 1 1
  have hR := rightContents_generateDiffLinesAux (splitLines s) (splitLines t) 1 1
  have hLlen : countType .remove (generateDiffLines s t) +
      countType .unchanged (generateDiffLines s t) = (splitLines s).length := by
    rw [← length_leftContents]
    unfold generateDiffLines
    rw [hL]
  have hRlen : countType .add (generateDiffLines s t) +
      countType .unchanged (generateDiffLines s t) = (splitLines t).length := by
    rw [← length_rightContents]
    unfold generateDiffLines
    rw [hR]
  simp only [generateDemoResult, calculateDiffStats_eq]
  exact ⟨hLlen.symm, hRlen.symm⟩

/-- C4 (counterexample): the line tokenizer does not drop the trailing empty
split segment — `"a\n"` does not tokenize to the single token `"a"`. -/
theorem C4_counterexample : splitLines "a\n" ≠ ["a"] := by decide

/-- C4 (amended): the line tokenizer keeps the trailing empty split segment
produced by a final line terminator: `"a\n"` yields the two tokens
`["a", ""]`, and in general a trailing newline contributes one extra empty
token to the line-token sequence. -/
theorem C4_trailing_segment_kept :
    (∀ s : String, splitLines (s ++ "\n") = splitLines s ++ [""]) ∧
    splitLines "a\n" = ["a", ""] := by
  constructor
  · intro s
    have hdata : (s ++ "\n").data = s.data ++ ['\n'] := by
      simp [String.data_append]
    simp only [splitLines, hdata, splitLinesAux_append_newline]
    simp
  · decide

/-- C5: identity — for every string `s`, diffing `s` against itself yields
stats `{added := 0, removed := 0, unchanged := lineCount s}`; for `s = ""` the
result is exactly one `unchanged` empty line. -/
theorem C5_identity :
    (∀ s : String,
      (generateDemoResult s s).stats.added = 0 ∧
      (generateDemoResult s s).stats.removed = 0 ∧
      (generateDemoResult s s).stats.unchanged = lineCount s) ∧
    (generateDemoResult "" "").lines = [⟨.unchanged, "", ⟨some 1, some 1⟩, none⟩] := by
  constructor
  · intro s
    obtain ⟨h1, h2, h3⟩ := generateDiffLinesAux_self (splitLines s) 1 1
    simp only [generateDemoResult, calculateDiffStats_eq, generateDiffLines, lineCount]
    exact ⟨h1, h2, h3⟩
  · simp [generateDemoResult, generateDiffLines, generateDiffLinesAux, splitLines,
      splitLinesAux]

/-- C6 (counterexample): for left `"cat"` and right `"car"` the two emitted
lines carry no inline character changes — the demo engine never populates
the `changes` field. -/
theorem C6_counterexample :
    ((generateDiffLines "cat" "car").all fun l => l.changes.isSome) = false := by
  have h : generateDiffLines "cat" "car" =
      [⟨.remove, "cat", ⟨some 1, none⟩, none⟩, ⟨.add, "car", ⟨none, some 1⟩, none⟩] := by
    simp [generateDiffLines, generateDiffLinesAux, splitLines, splitLinesAux, jsIndexOf]
  rw [h]
  decide

/-- C6 (amended): for left `"cat"` and right `"car"` the engine produces a
`remove` line `"cat"` immediately followed by an `add` line `"car"`, but
neither line carries inline character changes (`changes = none`): the demo
engine performs no character-granularity pass. -/
theorem C6_modification_pair :
    generateDiffLines "cat" "car" =
      [⟨.remove, "cat", ⟨some 1, none⟩, none⟩, ⟨.add, "car", ⟨none, some 1⟩, none⟩] := by
  simp [generateDiffLines, generateDiffLinesAux, splitLines, splitLinesAux, jsIndexOf]

/-- C7 (counterexample): for left `"Hello"` and right `"hello"` the engine does
not produce a single `unchanged` line: it emits two lines and no `unchanged`
line at all (comparison is case-sensitive and no option can change that). -/
theorem C7_counterexample :
    (generateDiffLines "Hello" "hello").length = 2 ∧
    countType .unchanged (generateDiffLines "Hello" "hello") = 0 := by
  have h : generateDiffLines "Hello" "hello" =
      [⟨.remove, "Hello", ⟨some 1, none⟩, none⟩, ⟨.add, "hello", ⟨none, some 1⟩, none⟩] := by
    simp [generateDiffLines, generateDiffLinesAux, splitLines, splitLinesAux, jsIndexOf]
  rw [h]
  constructor
  · rfl
  · decide

/-- C7 (amended): the demo engine consults no options and compares lines
case-sensitively: for left `"Hello"` and right `"hello"` it produces a
`remove` line `"Hello"` followed by an `add` line `"hello"`. -/
theorem C7_case_sensitive :
    generateDiffLines "Hello" "hello" =
      [⟨.remove, "Hello", ⟨some 1, none⟩, none⟩, ⟨.add, "hello", ⟨none, some 1⟩, none⟩] := by
  simp [generateDiffLines, generateDiffLinesAux, splitLines, splitLinesAux, jsIndexOf]

/-- C8 (counterexample): `calculateDiffStats` does not derive `totalLeft` from
its own per-kind counts: with an empty line list and externally supplied
counts 5 and 7 it returns `totalLeft = 5` while `removed + unchanged = 0`. -/
theorem C8_counterexample :
    (calculateDiffStats [] 5 7).totalLeft ≠
      (calculateDiffStats [] 5 7).removed + (calculateDiffStats [] 5 7).unchanged := by
  decide

/-- C8 (amended): `calculateDiffStats` counts `added`/`removed`/`unchanged`
from the line list but copies the two externally supplied line counts into
`totalLeft`/`totalRight` unchanged; the coverage invariant therefore holds
only when the supplied counts happen to match the per-kind counts, as at the
`generateDemoResult` call site. -/
theorem C8_totals_from_parameters (lines : List DiffLine) (a b : Nat) :
    calculateDiffStats lines a b =
      ⟨countType .add lines, countType .remove lines, countType .unchanged lines, a, b⟩ :=
  calculateDiffStats_eq lines a b

/-- C9: every line produced by `generateDiffLines` obeys the line-number
population invariant: `unchanged` lines have both numbers, `add` lines only
the right one, `remove` lines only the left one. -/
theorem C9_line_numbers (s t : String) :
    ∀ line ∈ generateDiffLines s t, lineNumbersOk line :=
  lineNumbersOk_generateDiffLinesAux (splitLines s) (splitLines t) 1 1

/-- C9 witness: the invariant instantiated on the concrete diff of `"a"`
against itself. -/
theorem C9_line_numbers_witness :
    (⟨.unchanged, "a", ⟨some 1, some 1⟩, none⟩ : DiffLine) ∈ generateDiffLines "a" "a" ∧
    lineNumbersOk ⟨.unchanged, "a", ⟨some 1, some 1⟩, none⟩ := by
  have h : generateDiffLines "a" "a" = [⟨.unchanged, "a", ⟨some 1, some 1⟩, none⟩] := by
    simp [generateDiffLines, generateDiffLinesAux, splitLines, splitLinesAux]
  refine ⟨by rw [h]; exact List.mem_singleton.mpr rfl, ?_⟩
  exact C9_line_numbers "a" "a" _ (by rw [h]; exact List.mem_singleton.mpr rfl)

/-- C10: for every pair of input strings — including two empty strings —
`generateDiffLines` returns a non-empty list, because splitting any string on
newlines yields at least one segment on each side. -/
theorem C10_nonempty (s t : String) : generateDiffLines s t ≠ [] := by
  unfold generateDiffLines
  rw [Ne, generateDiffLinesAux_eq_nil_iff]
  intro h
  exact splitLines_ne_nil s h.1

end DiffLocal
